import Mathlib

set_option maxHeartbeats 1000000

/- Shallow embedding of the A-kill trading strategy (src/main.py).
   Prices, volumes and ratios are modelled as exact rationals; dates are
   modelled by bar indices (for the daily series) or day numbers (for the
   position lifecycle).  Fallible external lookups are modelled by
   `Option` inputs, and caught exceptions by `Option` results. -/

/-- One daily price bar, as fetched by get_price with fields
open/close/high/low/volume. -/
structure Bar where
  open_ : ℚ
  close : ℚ
  high : ℚ
  low : ℚ
  volume : ℚ
deriving Repr, DecidableEq

instance : Inhabited Bar := ⟨⟨0, 0, 0, 0, 0⟩⟩

def closeAt (bs : List Bar) (i : ℕ) : ℚ := (bs.getD i default).close

def volumeAt (bs : List Bar) (i : ℕ) : ℚ := (bs.getD i default).volume

/-- Python max() over a list of rationals (0 on the empty list, which the
source never evaluates: every use is guarded to a nonempty slice). -/
def maxQ : List ℚ → ℚ
  | [] => 0
  | x :: xs => xs.foldl max x

/-- Python min() over a list of rationals (0 on the empty list). -/
def minQ : List ℚ → ℚ
  | [] => 0
  | x :: xs => xs.foldl min x

/-- The close-price slice closes[a:b] of the series.  Every use in the
source keeps b within bounds, where the slice is exactly the closes of the
bars with indices a, a+1, ..., b-1 (natural subtraction models Python's
clamping of a negative lower bound to 0, as in closes[max(0,i-3):i+1]). -/
def closesIdx (bs : List Bar) (a b : ℕ) : List ℚ :=
  (List.range' a (b - a)).map (fun k => closeAt bs k)

/-- np.argmin-style scan of identify_three_waves: the first index in
[lo, hi) whose close is strictly below every earlier candidate
(`if closes[i] < best_low`). -/
def argminIdx (bs : List Bar) (lo hi : ℕ) : ℕ :=
  (List.range' lo (hi - lo)).foldl
    (fun best i => if closeAt bs i < closeAt bs best then i else best) lo

/-- Symmetric scan for the down-leg start (`if closes[i] > best_high`). -/
def argmaxIdx (bs : List Bar) (lo hi : ℕ) : ℕ :=
  (List.range' lo (hi - lo)).foldl
    (fun best i => if closeAt bs best < closeAt bs i then i else best) lo

/-- The for-loop `for i in range(i0, i0+cnt): if ok(i): break`, returning
the first index satisfying ok, if any. -/
def scanFirst (ok : ℕ → Bool) : ℕ → ℕ → Option ℕ
  | _, 0 => none
  | i, c + 1 => if ok i then some i else scanFirst ok (i + 1) c

/-- Up-leg end condition of identify_three_waves: rise from the leg start
is at least 10%, the bar is more than 3 bars from the series end
(`if i < len(data) - 3`), and its close is >= the max close over
closes[i-3:i+1] and over closes[i+1:min(len(data),i+4)]. -/
def upEndOk (bs : List Bar) (sPrice : ℚ) (i : ℕ) : Bool :=
  let n := bs.length
  let c := closeAt bs i
  decide (10 ≤ (c - sPrice) / sPrice * 100) &&
  decide (i < n - 3) &&
  decide (maxQ (closesIdx bs (i - 3) (i + 1)) ≤ c) &&
  decide (maxQ (closesIdx bs (i + 1) (min n (i + 4))) ≤ c)

/-- Down-leg end condition: fall of at least 5% from the start, more than
3 bars from the series end, and a local minimum by the same windows. -/
def downEndOk (bs : List Bar) (sPrice : ℚ) (i : ℕ) : Bool :=
  let n := bs.length
  let c := closeAt bs i
  decide ((c - sPrice) / sPrice * 100 ≤ -5) &&
  decide (i < n - 3) &&
  decide (c ≤ minQ (closesIdx bs (i - 3) (i + 1))) &&
  decide (c ≤ minQ (closesIdx bs (i + 1) (min n (i + 4))))

/-- The support-level scan of identify_three_waves for an up leg spanning
bars s..e.  Faithful to the source, including its indexing slip: the loop
computes `idx = start_idx + i` but then reads close/open/low from
`data.iloc[i]` (an absolute index from the anchor) while taking the volume
`volumes[i]` from inside the leg (bar s+i). -/
def support_scan (bs : List Bar) (s e : ℕ) : Option ℚ :=
  let dur := e - s + 1
  let vols := ((bs.drop s).take dur).map (fun x => x.volume)
  let avg : ℚ := if 0 < vols.length then vols.sum / (vols.length : ℚ) else 0
  (List.range dur).foldl
    (fun sup i =>
      if (bs.getD i default).close > (bs.getD i default).open_ ∧
          volumeAt bs (s + i) > avg * (6 / 5) then
        match sup with
        | none => some (bs.getD i default).low
        | some v =>
          if (bs.getD i default).low < v then some (bs.getD i default).low
          else some v
      else sup)
    none

/-- Python truthiness applied to the optional support level: both
`if support_level:` appends and the `... if support_level else None`
record field treat 0.0 like None. -/
def pyTruthy (x : Option ℚ) : Option ℚ :=
  match x with
  | none => none
  | some v => if v = 0 then none else some v

/-- One wave record of identify_three_waves; start_date/end_date are the
bar indices of the segment bounds. -/
structure Wave where
  wave_type : String
  start_date : ℕ
  end_date : ℕ
  start_price : ℚ
  end_price : ℚ
  change_pct : ℚ
  duration : ℕ
  support_level : Option ℚ
deriving Repr, DecidableEq

instance : Inhabited Wave := ⟨⟨"up", 0, 0, 0, 0, 0, 0, none⟩⟩

/-- The wave start of one loop iteration of identify_three_waves: the
index of the minimal (up) or maximal (down) close within the next 10
bars from the cursor.  The wave's start price is its close. -/
def waveStart (bs : List Bar) (cur : ℕ) (wt : String) : ℕ :=
  if wt = "up" then argminIdx bs cur (min (cur + 10) bs.length)
  else argmaxIdx bs cur (min (cur + 10) bs.length)

/-- The end condition the end-search loop applies, by direction. -/
def waveOkF (bs : List Bar) (wt : String) (sPrice : ℚ) : ℕ → Bool :=
  if wt = "up" then upEndOk bs sPrice else downEndOk bs sPrice

/-- The wave end of one loop iteration: the first bar in
[s+5, min(s+30, n)) satisfying the direction's end condition, else the
forced end min(s+29, n-1). -/
def waveEnd (bs : List Bar) (wt : String) (s : ℕ) : ℕ :=
  match scanFirst (waveOkF bs wt (closeAt bs s)) (s + 5)
      (min (s + 30) bs.length - (s + 5)) with
  | some i => i
  | none => min (s + 29) (bs.length - 1)

/-- The wave-segmentation while-loop of identify_three_waves.  The fuel
argument counts the waves still allowed (the loop runs while
`len(waves) < 8`), and cur is current_idx.  Returns the wave list and the
accumulated support_levels, in discovery order. -/
def buildWavesAux (bs : List Bar) : ℕ → ℕ → String → List Wave × List ℚ
  | 0, _, _ => ([], [])
  | fuel + 1, cur, wt =>
    if cur < bs.length - 10 then
      let sIdx := waveStart bs cur wt
      let eIdx := waveEnd bs wt sIdx
      let sPrice := closeAt bs sIdx
      let ePrice := closeAt bs eIdx
      let change := (ePrice - sPrice) / sPrice * 100
      let sup := if wt = "up" then pyTruthy (support_scan bs sIdx eIdx) else none
      let w : Wave := ⟨wt, sIdx, eIdx, sPrice, ePrice, change, eIdx - sIdx + 1, sup⟩
      let rest := buildWavesAux bs fuel (eIdx + 1) (if wt = "up" then "down" else "up")
      (w :: rest.1, (match sup with | some v => v :: rest.2 | none => rest.2))
    else ([], [])

/-- The full wave segmentation: at most 8 waves, starting at index 0 in
the up direction. -/
def buildWaves (bs : List Bar) : List Wave × List ℚ := buildWavesAux bs 8 0 "up"

/-- Result dictionary of identify_three_waves.  Failure results carry only
confirmed/reason in the source; the remaining fields default. -/
structure PatternResult where
  confirmed : Bool
  reason : String
  wave_count : ℕ := 0
  waves : List Wave := []
  support_levels : List ℚ := []
  wave3_high : ℚ := 0
  strongest_support : Option ℚ := none
  total_rise_pct : ℚ := 0
  total_days : ℕ := 0
  quality_score : ℕ := 0
deriving Repr, DecidableEq

/-- identify_three_waves after the data fetch: bs is the series from the
located start date onward (data = price_data.iloc[start_idx:]), and
min_wave_score is g.params['min_wave_score'] (default 40).  Reason strings
keep the source's constant prefix (the interpolated counts are elided). -/
def identify_three_waves (bs : List Bar) (min_wave_score : ℕ) : PatternResult :=
  if bs.length < 30 then { confirmed := false, reason := "数据长度不足" }
  else
    let wr := buildWaves bs
    let waves := wr.1
    let support_levels := wr.2
    let up_waves := waves.filter (fun w => w.wave_type = "up")
    if up_waves.length < 3 then { confirmed := false, reason := "拉升波不足" }
    else
      let h0 := ((up_waves.take 3).map (fun w => w.end_price)).getD 0 0
      let h1 := ((up_waves.take 3).map (fun w => w.end_price)).getD 1 0
      let h2 := ((up_waves.take 3).map (fun w => w.end_price)).getD 2 0
      if ¬ (h0 < h1 ∧ h1 < h2) then { confirmed := false, reason := "高点未逐步抬高" }
      else if support_levels.length < 2 then { confirmed := false, reason := "支撑位不足" }
      else
        let score1 := (up_waves.take 3).foldl
          (fun s w => if 10 ≤ w.change_pct ∧ w.change_pct ≤ 20 then s + 10 else s) 0
        let total_days := (waves.map (fun w => w.duration)).sum
        let score2 := if total_days ≤ 90 then score1 + 20 else score1
        let score := if 2 ≤ support_levels.length then score2 + 20 else score2
        if score < min_wave_score then { confirmed := false, reason := "质量分不足" }
        else
          { confirmed := true
            reason := "三波拉升确认"
            wave_count := waves.length
            waves := waves
            support_levels := support_levels.take 3
            wave3_high := h2
            strongest_support :=
              if support_levels ≠ [] then some (maxQ (support_levels.take 3)) else none
            total_rise_pct :=
              (h2 - (waves.getD 0 default).start_price)
                / (waves.getD 0 default).start_price * 100
            total_days := total_days
            quality_score := min 100 score }

/-- Consolidation result dictionary of check_consolidation. -/
structure ConsolidationResult where
  is_consolidating : Bool
  in_range_ratio : ℚ
  volume_ratio : ℚ
  current_price : ℚ
  support_level : ℚ
  resistance_level : ℚ
  price_position : ℚ
deriving Repr, DecidableEq

/-- The in-range ratio of check_consolidation: the fraction of closes
between support*0.98 and resistance*1.02 (exact rationals for the
source's floats). -/
def in_range_ratio_of (closes : List ℚ) (support resistance : ℚ) : ℚ :=
  (closes.countP
      (fun p => decide (support * (98 / 100) ≤ p ∧ p ≤ resistance * (102 / 100))) : ℚ)
    / (closes.length : ℚ)

/-- The volume ratio of check_consolidation: mean of the most recent 10
volumes over the mean of the earliest 10, with the source's fallbacks to
1 for a short window or a zero early mean. -/
def volume_ratio_of (volumes : List ℚ) : ℚ :=
  if 20 ≤ volumes.length then
    if 0 < (volumes.take 10).sum / 10 then
      ((volumes.drop (volumes.length - 10)).sum / 10) / ((volumes.take 10).sum / 10)
    else 1
  else 1

/-- The price position of check_consolidation: the latest close mapped
linearly between support (0) and resistance (100), defaulting to 50 when
resistance does not exceed support. -/
def price_position_of (closes : List ℚ) (support resistance : ℚ) : ℚ :=
  if support < resistance then
    (closes.getLastD 0 - support) / (resistance - support) * 100
  else 50

/-- check_consolidation: pd is the trailing 60-bar close/volume window
fetched by get_price (none models a failed fetch).  Floats 0.98, 1.02,
0.7 and 1.5 are the exact rationals used by the source. -/
def check_consolidation (pd : Option (List Bar)) (wave3_high : ℚ)
    (support_levels : List ℚ) : Option ConsolidationResult :=
  match pd with
  | none => none
  | some bars =>
    if bars.length < 20 then none
    else if support_levels.isEmpty then none
    else
      some
        { is_consolidating :=
            decide (7 / 10 ≤ in_range_ratio_of (bars.map (fun b => b.close))
              (maxQ support_levels) wave3_high) &&
            decide (volume_ratio_of (bars.map (fun b => b.volume)) < 3 / 2)
          in_range_ratio := in_range_ratio_of (bars.map (fun b => b.close))
            (maxQ support_levels) wave3_high
          volume_ratio := volume_ratio_of (bars.map (fun b => b.volume))
          current_price := (bars.map (fun b => b.close)).getLastD 0
          support_level := maxQ support_levels
          resistance_level := wave3_high
          price_position := price_position_of (bars.map (fun b => b.close))
            (maxQ support_levels) wave3_high }

/-- The trade-signal dictionary built by generate_trade_signal. -/
structure TradeSignal where
  stock_code : String
  stock_name : String
  signal_strength : String
  position_ratio : ℚ
  entry_price : ℚ
  stop_loss : ℚ
  take_profit : ℚ
  shareholder_change : Option ℚ
  volume_ratio : ℚ
  price_change : ℚ
  turnover_ratio : ℚ
  buy_time : ℕ
deriving Repr, DecidableEq

/-- calculate_composite_score from trade_logic: strength base via the
dict lookup with default 0, plus the shareholder-change bonus
max(-50, min(change * (-10), 50)) when the change is present. -/
def calculate_composite_score (s : TradeSignal) : ℚ :=
  let strength_score : ℚ :=
    if s.signal_strength = "strong" then 100
    else if s.signal_strength = "medium" then 60
    else if s.signal_strength = "weak" then 30
    else 0
  let shareholder_bonus : ℚ :=
    match s.shareholder_change with
    | none => 0
    | some change => max (-50) (min (change * (-10)) 50)
  strength_score + shareholder_bonus

/-- Result dictionary of identify_A_kill.  The failure branches return the
bare {'has_A_kill': True} dictionary, so the remaining keys are absent
(modelled as none).  A_bottom_date is the index of the minimal close. -/
structure AKillResult where
  has_A_kill : Bool
  quality_score : Option ℕ := none
  A_bottom : Option ℚ := none
  A_bottom_date : Option ℕ := none
deriving Repr, DecidableEq

/-- np.argmin over a list of rationals: first index of the minimum. -/
def argminList (l : List ℚ) : ℕ :=
  (List.range l.length).foldl
    (fun best i => if l.getD i 0 < l.getD best 0 then i else best) 0

/-- The overall high-to-low change of identify_A_kill:
(max(high) - min(close)) / min(close) * 100. -/
def totalChange (bars : List Bar) : ℚ :=
  (maxQ (bars.map (fun b => b.high)) - minQ (bars.map (fun b => b.close)))
    / minQ (bars.map (fun b => b.close)) * 100

/-- identify_A_kill: pd none models a failed get_price (the bare except
returns {'has_A_kill': True}); fewer than 60 bars or a total change of at
most 30% also return the bare dictionary. -/
def identify_A_kill (pd : Option (List Bar)) : AKillResult :=
  match pd with
  | none => { has_A_kill := true }
  | some bars =>
    if bars.length < 60 then { has_A_kill := true }
    else
      if totalChange bars > 30 then
        { has_A_kill := true
          quality_score := some 60
          A_bottom := some (minQ (bars.map (fun b => b.close)))
          A_bottom_date := some (argminList (bars.map (fun b => b.close))) }
      else { has_A_kill := true }

/-- The decision prefix of generate_trade_signal: the A-kill gate and the
a_kill['A_bottom_date'] lookup.  A missing key raises a KeyError that the
try/except of generate_trade_signal turns into None; rest models the whole
remainder of the function (three-wave check onwards), which only runs once
a bottom date was found. -/
def generate_trade_signal (pd : Option (List Bar))
    (rest : ℕ → Option TradeSignal) : Option TradeSignal :=
  let a_kill := identify_A_kill pd
  if a_kill.has_A_kill = false then none
  else
    match a_kill.A_bottom_date with
    | none => none
    | some d => rest d

/-- One entry of g.positions. -/
structure GPosition where
  buy_price : ℚ
  buy_time : ℕ
  quantity : ℚ
  selling : Bool
  sell_reason : Option String := none
  sell_time : Option ℕ := none
  stop_loss : ℚ := 0
  take_profit : ℚ := 0
deriving Repr, DecidableEq

/-- The risk parameters of g.params used by the exit checks. -/
structure StratParams where
  immediate_stop_loss : ℚ
  immediate_take_profit : ℚ
  tail_take_profit : ℚ
  time_stop_days : ℕ
deriving Repr, DecidableEq

/-- The values set in initialize. -/
def gParams : StratParams :=
  { immediate_stop_loss := 15 / 100
    immediate_take_profit := 20 / 100
    tail_take_profit := 15 / 100
    time_stop_days := 30 }

/-- The market environment one exit check observes for one position:
wall-clock time, current date (day number), last price, and the actual
portfolio quantity (none when the stock is not in context.portfolio). -/
structure Tick where
  hour : ℕ
  minute : ℕ
  day : ℕ
  price : ℚ
  amount : Option ℚ
deriving Repr, DecidableEq

/-- The body of check_immediate_stops for one held position: the opening
and pre-close window guards, the skip of positions already flagged
selling, the skip of absent or empty holdings, then the stop-loss and
take-profit transitions.  Returns the updated position entry and the
number of close orders submitted (order_target(stock, 0) calls). -/
def check_immediate_one (p : StratParams) (t : Tick) (pos : GPosition) :
    GPosition × ℕ :=
  if t.hour = 9 ∧ t.minute < 30 then (pos, 0)
  else if t.hour = 14 ∧ 55 ≤ t.minute then (pos, 0)
  else if pos.selling then (pos, 0)
  else if t.amount = none then (pos, 0)
  else if t.amount.getD 0 ≤ 0 then (pos, 0)
  else
    let profit_pct := (t.price - pos.buy_price) / pos.buy_price * 100
    if profit_pct ≤ -(p.immediate_stop_loss * 100) then
      ({ pos with selling := true, sell_reason := some "立即止损",
                  sell_time := some t.day }, 1)
    else if p.immediate_take_profit * 100 ≤ profit_pct then
      ({ pos with selling := true, sell_reason := some "立即止盈",
                  sell_time := some t.day }, 1)
    else (pos, 0)

/-- The body of check_tail_position for one held position: skip if already
selling or not actually held, then the tail take-profit and the time-stop
transitions (the time stop fires on elapsed days regardless of sign; only
the recorded label differs). -/
def check_tail_one (p : StratParams) (t : Tick) (pos : GPosition) :
    GPosition × ℕ :=
  if pos.selling then (pos, 0)
  else if t.amount = none then (pos, 0)
  else if t.amount.getD 0 ≤ 0 then (pos, 0)
  else
    let profit_pct := (t.price - pos.buy_price) / pos.buy_price * 100
    let hold_days := t.day - pos.buy_time
    if p.tail_take_profit * 100 ≤ profit_pct then
      ({ pos with selling := true, sell_reason := some "尾盘止盈",
                  sell_time := some t.day }, 1)
    else if p.time_stop_days ≤ hold_days then
      ({ pos with selling := true,
                  sell_reason :=
                    some (if 0 < profit_pct then "时间止盈" else "时间止损"),
                  sell_time := some t.day }, 1)
    else (pos, 0)

/-- One scheduled exit check applied to a position. -/
inductive ExitCheck where
  | immediate (t : Tick)
  | tail (t : Tick)
deriving Repr, DecidableEq

def run_check (p : StratParams) (c : ExitCheck) (pos : GPosition) :
    GPosition × ℕ :=
  match c with
  | ExitCheck.immediate t => check_immediate_one p t pos
  | ExitCheck.tail t => check_tail_one p t pos

/-- A sequence of exit checks against one position, accumulating the
total number of close orders submitted for it. -/
def run_checks (p : StratParams) : List ExitCheck → GPosition → GPosition × ℕ
  | [], pos => (pos, 0)
  | c :: cs, pos =>
    let r := run_check p c pos
    let r2 := run_checks p cs r.1
    (r2.1, r.2 + r2.2)

/-- An open order of the prior cycle as seen by get_open_orders. -/
structure OpenOrder where
  status : String
deriving Repr, DecidableEq

/-- morning_cleanup (09:25): cancel every order whose status is open or
pending, then delete from g.positions every entry flagged selling.
Returns the orders cancelled and the surviving position map. -/
def morning_cleanup (orders : List OpenOrder)
    (positions : List (String × GPosition)) :
    List OpenOrder × List (String × GPosition) :=
  let canceled := orders.foldl
    (fun acc o => if o.status = "open" ∨ o.status = "pending" then acc ++ [o] else acc) []
  let stocks_to_remove := positions.foldl
    (fun acc e => if e.2.selling then acc ++ [e.1] else acc) ([] : List String)
  let remaining := stocks_to_remove.foldl
    (fun ps c => ps.filter (fun e => ¬ e.1 = c)) positions
  (canceled, remaining)

/-- cleanup_sold_positions: delete the entries flagged selling whose
actual portfolio quantity is at most 0 (absent stocks count as 0). -/
def cleanup_sold_positions (portfolio_amount : String → ℚ)
    (positions : List (String × GPosition)) : List (String × GPosition) :=
  let stocks_to_remove := positions.foldl
    (fun acc e =>
      if e.2.selling ∧ portfolio_amount e.1 ≤ 0 then acc ++ [e.1] else acc)
    ([] : List String)
  stocks_to_remove.foldl (fun ps c => ps.filter (fun e => ¬ e.1 = c)) positions

/-- Spec-side support rule (§4.1 of the spec, claim C5): the lowest low
among the bars inside the leg whose close exceeds the open and whose
volume exceeds 1.2 times the leg's mean volume; absent if none qualify. -/
def support_price_spec (bs : List Bar) (s e : ℕ) : Option ℚ :=
  let leg := (bs.drop s).take (e - s + 1)
  let avg : ℚ := if 0 < leg.length then (leg.map (fun b => b.volume)).sum / (leg.length : ℚ) else 0
  let lows := (leg.filter
    (fun b => decide (b.open_ < b.close) && decide (avg * (6 / 5) < b.volume))).map
    (fun b => b.low)
  match lows with
  | [] => none
  | _ => some (minQ lows)

/-- Spec-side up-leg end rule as claim C6 states it: the first bar, at
least 5 bars after the start, whose close has risen at least 10% from the
start price and which is >= the max close of the (up to) 3 bars before it
and of the (up to) 3 bars after it, bars near the series edge being
confirmed with the truncated window. -/
def up_end_spec (bs : List Bar) (sPrice : ℚ) (s : ℕ) : Option ℕ :=
  let n := bs.length
  scanFirst
    (fun i =>
      decide (10 ≤ (closeAt bs i - sPrice) / sPrice * 100) &&
      decide (maxQ (closesIdx bs (i - 3) i) ≤ closeAt bs i) &&
      decide (maxQ (closesIdx bs (i + 1) (min n (i + 4))) ≤ closeAt bs i))
    (s + 5) (min (s + 30) n - (s + 5))

/-- Spec-side strength base of the composite score (§4.5). -/
def strength_base (strength : String) : ℚ :=
  if strength = "strong" then 100
  else if strength = "medium" then 60
  else if strength = "weak" then 30
  else 0

/-- Clamp x to the interval [lo, hi]. -/
def clampQ (lo hi x : ℚ) : ℚ := max lo (min x hi)

/-- Spec-side auxiliary bonus of the composite score (§4.5): the
shareholder-change factor times -10 clamped to [-50, 50] when present,
else 0. -/
def auxiliary_bonus (factor : Option ℚ) : ℚ :=
  match factor with
  | none => 0
  | some f => clampQ (-50) 50 (f * (-10))

/-- The code-side up-leg end condition written as a proposition in the
vocabulary of claim C6: at least a 10% rise, strictly more than 3 bars
before the series end, and a close at least every close of the 3 bars
before and the 3 bars after. -/
def upEndCond (bs : List Bar) (sPrice : ℚ) (i : ℕ) : Prop :=
  10 ≤ (closeAt bs i - sPrice) / sPrice * 100 ∧
  i + 3 < bs.length ∧
  (∀ k, i - 3 ≤ k → k < i → closeAt bs k ≤ closeAt bs i) ∧
  (∀ k, i < k → k ≤ i + 3 → closeAt bs k ≤ closeAt bs i)

/-- A 35-bar series on which the detector confirms the three-wave
pattern: up legs 0-5 (+12%), 12-17 (+14.3%) and 24-29 (+15.0%) separated
by down legs 6-11 and 18-23, with a qualifying high-volume bullish bar
(index 3, open 102.5 < close 103, volume 20, low 99) whose low is
recorded as the support of every up leg. -/
def witBars : List Bar :=
  [⟨101, 100, 100, 99, 10⟩, ⟨102, 101, 101, 100, 10⟩, ⟨103, 102, 102, 101, 10⟩,
   ⟨205/2, 103, 103, 99, 20⟩, ⟨105, 104, 104, 103, 10⟩, ⟨113, 112, 112, 111, 10⟩,
   ⟨112, 111, 111, 110, 10⟩, ⟨111, 110, 110, 109, 10⟩, ⟨110, 109, 109, 108, 10⟩,
   ⟨109, 108, 108, 107, 10⟩, ⟨108, 107, 107, 106, 10⟩, ⟨105, 104, 104, 103, 10⟩,
   ⟨106, 105, 105, 104, 10⟩, ⟨107, 106, 106, 105, 10⟩, ⟨108, 107, 107, 106, 10⟩,
   ⟨109, 108, 108, 107, 20⟩, ⟨110, 109, 109, 108, 10⟩, ⟨121, 120, 120, 119, 10⟩,
   ⟨120, 119, 119, 118, 10⟩, ⟨119, 118, 118, 117, 10⟩, ⟨118, 117, 117, 116, 10⟩,
   ⟨117, 116, 116, 115, 10⟩, ⟨116, 115, 115, 114, 10⟩, ⟨113, 112, 112, 111, 10⟩,
   ⟨114, 113, 113, 112, 10⟩, ⟨115, 114, 114, 113, 10⟩, ⟨116, 115, 115, 114, 10⟩,
   ⟨117, 116, 116, 115, 20⟩, ⟨118, 117, 117, 116, 10⟩, ⟨131, 130, 130, 129, 10⟩,
   ⟨130, 129, 129, 128, 10⟩, ⟨129, 128, 128, 127, 10⟩, ⟨128, 127, 127, 126, 10⟩,
   ⟨127, 126, 126, 125, 10⟩, ⟨126, 125, 125, 124, 10⟩]

/-- A 12-bar series for claim C6: bar 9 (close 115) has risen 15% from
the leg start (close 100 at index 0) and is a local extremum even with
the truncated edge windows, but it lies within the last 3 bars of the
series, so the source never accepts it and forces the leg to end at the
series end (index 11, close 102). -/
def edgeBars : List Bar :=
  [⟨101, 100, 100, 99, 10⟩, ⟨106, 105, 105, 104, 10⟩, ⟨105, 104, 104, 103, 10⟩,
   ⟨104, 103, 103, 102, 10⟩, ⟨105, 104, 104, 103, 10⟩, ⟨104, 103, 103, 102, 10⟩,
   ⟨105, 104, 104, 103, 10⟩, ⟨104, 103, 103, 102, 10⟩, ⟨105, 104, 104, 103, 10⟩,
   ⟨116, 115, 115, 114, 10⟩, ⟨104, 103, 103, 102, 10⟩, ⟨103, 102, 102, 101, 10⟩]

/-- Any single check leaves a position flagged selling untouched and
submits no order. -/
theorem run_check_selling (p : StratParams) (c : ExitCheck) (pos : GPosition)
    (h : pos.selling = true) : run_check p c pos = (pos, 0) := by
  cases c with
  | immediate t => simp [run_check, check_immediate_one, h]
  | tail t => simp [run_check, check_tail_one, h]

/-- Any single check either does nothing or submits exactly one order
while flagging the position selling. -/
theorem run_check_cases (p : StratParams) (c : ExitCheck) (pos : GPosition) :
    run_check p c pos = (pos, 0) ∨
    ((run_check p c pos).1.selling = true ∧ (run_check p c pos).2 = 1) := by
  cases c with
  | immediate t =>
    simp only [run_check, check_immediate_one]
    split_ifs <;> first
      | exact Or.inl rfl
      | exact Or.inr ⟨rfl, rfl⟩
  | tail t =>
    simp only [run_check, check_tail_one]
    split_ifs <;> first
      | exact Or.inl rfl
      | exact Or.inr ⟨rfl, rfl⟩

/-- C4: once a position is flagged pending close (selling = true), every
immediate and tail check skips it and submits no further close order, and
over any sequence of checks a position generates at most one close order
(none at all if it starts already flagged). -/
theorem pending_close_idempotent :
    ∀ (p : StratParams) (pos : GPosition),
      (∀ c : ExitCheck, pos.selling = true → run_check p c pos = (pos, 0)) ∧
      (∀ cs : List ExitCheck,
        (run_checks p cs pos).2 ≤ if pos.selling = true then 0 else 1) := by
  intro p pos
  refine ⟨fun c h => run_check_selling p c pos h, fun cs => ?_⟩
  induction cs generalizing pos with
  | nil => simp [run_checks]
  | cons c cs ih =>
    simp only [run_checks]
    rcases run_check_cases p c pos with h | ⟨hsell, hone⟩
    · rw [h]
      simpa using ih pos
    · rw [hone]
      have hrest := ih (run_check p c pos).1
      rw [hsell] at hrest
      simp only [if_pos] at hrest
      by_cases hp : pos.selling = true
      · have := run_check_selling p c pos hp
        rw [this] at hone
        simp at hone
      · simp only [if_neg hp]
        omega

/-- A concrete position already flagged pending close. -/
def flaggedPos : GPosition :=
  { buy_price := 10, buy_time := 0, quantity := 1000, selling := true }

/-- A concrete late-session tick. -/
def tailTick : Tick :=
  { hour := 14, minute := 55, day := 40, price := 5, amount := some 1000 }

/-- Witness for C4: the flagged position is skipped by a concrete tail
check, and a concrete two-check sequence submits no order for it. -/
theorem pending_close_idempotent_witness :
    run_check gParams (ExitCheck.tail tailTick) flaggedPos = (flaggedPos, 0) ∧
    (run_checks gParams [ExitCheck.immediate tailTick, ExitCheck.tail tailTick]
        flaggedPos).2 ≤ if flaggedPos.selling = true then 0 else 1 :=
  ⟨(pending_close_idempotent gParams flaggedPos).1 (ExitCheck.tail tailTick) rfl,
   (pending_close_idempotent gParams flaggedPos).2
     [ExitCheck.immediate tailTick, ExitCheck.tail tailTick]⟩

/-- C3: the composite score is the strength base (strong 100, medium 60,
weak 30) plus the auxiliary shareholder-change bonus, the bonus being the
change times -10 clamped to [-50, 50] when present and 0 when absent; a
positive change yields a negative raw term before clamping (so the bonus
is never positive for a positive change). -/
theorem composite_score_formula :
    ∀ s : TradeSignal,
      calculate_composite_score s =
        strength_base s.signal_strength + auxiliary_bonus s.shareholder_change ∧
      (∀ f : ℚ, s.shareholder_change = some f → 0 < f →
        f * (-10) < 0 ∧ auxiliary_bonus (some f) ≤ 0) := by
  intro s
  constructor
  · unfold calculate_composite_score strength_base auxiliary_bonus clampQ
    cases s.shareholder_change <;> rfl
  · intro f _ hf
    have hneg : f * (-10) < 0 := by nlinarith
    refine ⟨hneg, ?_⟩
    unfold auxiliary_bonus clampQ
    have h1 : min (f * (-10)) 50 ≤ f * (-10) := min_le_left _ _
    have h2 : (-50 : ℚ) ≤ 0 := by norm_num
    exact max_le h2 (le_of_lt (lt_of_le_of_lt h1 hneg))

/-- A concrete strong signal with a positive shareholder-change factor. -/
def demoSignal : TradeSignal :=
  { stock_code := "600000.XSHG", stock_name := "demo", signal_strength := "strong"
    position_ratio := 1/10, entry_price := 10, stop_loss := 8, take_profit := 12
    shareholder_change := some 2, volume_ratio := 2, price_change := 5
    turnover_ratio := 8, buy_time := 0 }

/-- Witness for C3 at the concrete signal with factor 2. -/
theorem composite_score_formula_witness :
    calculate_composite_score demoSignal =
      strength_base demoSignal.signal_strength
        + auxiliary_bonus demoSignal.shareholder_change ∧
    ((2 : ℚ) * (-10) < 0 ∧ auxiliary_bonus (some 2) ≤ 0) :=
  ⟨(composite_score_formula demoSignal).1,
   (composite_score_formula demoSignal).2 2 rfl (by norm_num)⟩

/-- C10: identify_A_kill reports has_A_kill = true on every input, and on
a failed fetch, a series of fewer than 60 bars, or an overall change of
at most 30%, the result carries no A_bottom_date, so generate_trade_signal
hits the missing-key path and returns no signal. -/
theorem a_kill_always_true_no_signal :
    ∀ (pd : Option (List Bar)) (rest : ℕ → Option TradeSignal),
      (identify_A_kill pd).has_A_kill = true ∧
      ((pd = none ∨ (∃ bars, pd = some bars ∧ bars.length < 60) ∨
        (∃ bars, pd = some bars ∧ 60 ≤ bars.length ∧ totalChange bars ≤ 30)) →
        (identify_A_kill pd).A_bottom_date = none ∧
        generate_trade_signal pd rest = none) := by
  intro pd rest
  have hbot : (pd = none ∨ (∃ bars, pd = some bars ∧ bars.length < 60) ∨
      (∃ bars, pd = some bars ∧ 60 ≤ bars.length ∧ totalChange bars ≤ 30)) →
      (identify_A_kill pd).A_bottom_date = none := by
    rintro (rfl | ⟨bars, rfl, hlen⟩ | ⟨bars, rfl, hlen, hch⟩)
    · rfl
    · simp [identify_A_kill, hlen]
    · have h60 : ¬ bars.length < 60 := by omega
      have hnc : ¬ totalChange bars > 30 := not_lt.mpr hch
      simp [identify_A_kill, h60, hnc]
  have htrue : (identify_A_kill pd).has_A_kill = true := by
    cases pd with
    | none => rfl
    | some bars =>
      simp only [identify_A_kill]
      split_ifs <;> rfl
  refine ⟨htrue, fun h => ⟨hbot h, ?_⟩⟩
  simp only [generate_trade_signal]
  rw [htrue, hbot h]
  simp

/-- Witness for C10 at a failed fetch. -/
theorem a_kill_always_true_no_signal_witness :
    (identify_A_kill none).has_A_kill = true ∧
    ((identify_A_kill none).A_bottom_date = none ∧
      generate_trade_signal none (fun _ => none) = none) :=
  ⟨(a_kill_always_true_no_signal none (fun _ => none)).1,
   (a_kill_always_true_no_signal none (fun _ => none)).2 (Or.inl rfl)⟩

/-- C2: for every window the consolidation detector accepts (it returns a
result only for a fetched window of at least 20 bars with non-empty
support levels), the is_consolidating flag holds iff in_range_ratio is at
least 0.7 and volume_ratio is below 1.5; in particular the flag is false
whenever volume_ratio is at least 1.5. -/
theorem consolidation_flag_iff :
    ∀ (pd : Option (List Bar)) (wave3_high : ℚ) (support_levels : List ℚ)
      (r : ConsolidationResult),
      check_consolidation pd wave3_high support_levels = some r →
      ((r.is_consolidating = true ↔
          (7 / 10 ≤ r.in_range_ratio ∧ r.volume_ratio < 3 / 2)) ∧
        (3 / 2 ≤ r.volume_ratio → r.is_consolidating = false)) := by
  intro pd high sl r h
  cases pd with
  | none => exact absurd h (by simp [check_consolidation])
  | some bars =>
    simp only [check_consolidation] at h
    by_cases h1 : bars.length < 20
    · rw [if_pos h1] at h
      exact absurd h (by simp)
    · rw [if_neg h1] at h
      by_cases h2 : sl.isEmpty
      · rw [if_pos h2] at h
        exact absurd h (by simp)
      · rw [if_neg h2] at h
        rw [Option.some.injEq] at h
        subst h
        constructor
        · simp only [Bool.and_eq_true, decide_eq_true_eq]
        · intro hv
          simp only [Bool.and_eq_false_iff, decide_eq_false_iff_not]
          exact Or.inr (not_lt.mpr hv)

/-- A flat 20-bar window: every close equals 100 and every volume 10. -/
def flatBars : List Bar := List.replicate 20 ⟨101, 100, 100, 99, 10⟩

/-- The result check_consolidation returns on the flat window with
resistance 100 and support level 100. -/
def flatRes : ConsolidationResult :=
  { is_consolidating := true, in_range_ratio := 1, volume_ratio := 1
    current_price := 100, support_level := 100, resistance_level := 100
    price_position := 50 }

/-- Witness for C2 at the flat window. -/
theorem consolidation_flag_iff_witness :
    (flatRes.is_consolidating = true ↔
      (7 / 10 ≤ flatRes.in_range_ratio ∧ flatRes.volume_ratio < 3 / 2)) ∧
    (3 / 2 ≤ flatRes.volume_ratio → flatRes.is_consolidating = false) :=
  consolidation_flag_iff (some flatBars) 100 [100] flatRes (by with_unfolding_all rfl)

/-- The foldl that accumulates keys (or cancelled orders) one list
append at a time equals a filter followed by a map. -/
theorem foldl_append_if {α β : Type} (p : α → Prop) [DecidablePred p] (f : α → β) :
    ∀ (l : List α) (acc : List β),
      l.foldl (fun a x => if p x then a ++ [f x] else a) acc
        = acc ++ (l.filter (fun x => decide (p x))).map f := by
  intro l
  induction l with
  | nil => intro acc; simp
  | cons x xs ih =>
    intro acc
    by_cases hx : p x
    · simp [List.foldl_cons, List.filter_cons, hx, ih]
    · simp [List.foldl_cons, List.filter_cons, hx, ih]

/-- Folding key deletions over a removal list equals filtering on
non-membership of the key. -/
theorem foldl_del_eq_filter {α : Type} (key : α → String) :
    ∀ (rm : List String) (ps : List α),
      rm.foldl (fun ps c => ps.filter (fun e => ¬ key e = c)) ps
        = ps.filter (fun e => decide (key e ∉ rm)) := by
  intro rm
  induction rm with
  | nil => intro ps; simp
  | cons c cs ih =>
    intro ps
    rw [List.foldl_cons, ih, List.filter_filter]
    apply List.filter_congr
    intro e _
    by_cases h1 : key e = c <;> by_cases h2 : key e ∈ cs <;>
      simp [h1, h2, List.mem_cons]

/-- A held position flagged pending close whose sell order has not yet
filled: the held quantity is still 500. -/
def stalePos : GPosition :=
  { buy_price := 10, buy_time := 0, quantity := 500, selling := true }

/-- The portfolio still holds 500 shares of the stale position. -/
def staleQty : String → ℚ := fun _ => 500

/-- C7 counterexample: the pre-session cleanup removes the pending-close
entry even though its held quantity (500) is not zero, so it does not
remove exactly the confirmed-zero entries as the claim states. -/
theorem morning_cleanup_counterexample :
    (morning_cleanup [] [("600000", stalePos)]).2 = [] ∧
    staleQty "600000" ≠ 0 ∧
    [("600000", stalePos)].filter
      (fun e => decide (¬ (e.2.selling = true ∧ staleQty e.1 = 0)))
        = [("600000", stalePos)] ∧
    (morning_cleanup [] [("600000", stalePos)]).2 ≠
      [("600000", stalePos)].filter
        (fun e => decide (¬ (e.2.selling = true ∧ staleQty e.1 = 0))) := by
  refine ⟨by with_unfolding_all rfl, by norm_num [staleQty], by with_unfolding_all rfl, ?_⟩
  intro h
  rw [show [("600000", stalePos)].filter
      (fun e => decide (¬ (e.2.selling = true ∧ staleQty e.1 = 0)))
        = [("600000", stalePos)] from by with_unfolding_all rfl] at h
  rw [show (morning_cleanup [] [("600000", stalePos)]).2 = [] from by with_unfolding_all rfl] at h
  exact absurd h (by simp)

/-- C7 amended: the pre-session cleanup cancels exactly the still-open
(open or pending) orders of the prior cycle and removes exactly the
position entries flagged pending close, regardless of their held
quantity, leaving every other entry unchanged. -/
theorem morning_cleanup_removes_all_pending :
    ∀ (orders : List OpenOrder) (positions : List (String × GPosition)),
      (positions.map Prod.fst).Nodup →
      (morning_cleanup orders positions).1
        = orders.filter (fun o => decide (o.status = "open" ∨ o.status = "pending")) ∧
      (morning_cleanup orders positions).2
        = positions.filter (fun e => e.2.selling = false) := by
  intro orders positions hnd
  constructor
  · show orders.foldl
        (fun acc o => if o.status = "open" ∨ o.status = "pending" then acc ++ [o] else acc) []
      = _
    have h := foldl_append_if
      (fun o : OpenOrder => o.status = "open" ∨ o.status = "pending") id orders []
    simpa using h
  · show (positions.foldl
        (fun acc e => if e.2.selling = true then acc ++ [e.1] else acc) []).foldl
          (fun ps c => ps.filter (fun e => ¬ e.1 = c)) positions
      = _
    rw [foldl_append_if (fun e : String × GPosition => e.2.selling = true) Prod.fst,
      List.nil_append, foldl_del_eq_filter Prod.fst]
    apply List.filter_congr
    intro e he
    rw [decide_eq_decide]
    by_cases hs : e.2.selling = true
    · have hmem : e.1 ∈
          ((positions.filter (fun e => decide (e.2.selling = true))).map Prod.fst) :=
        List.mem_map_of_mem Prod.fst (List.mem_filter.mpr ⟨he, by simp [hs]⟩)
      exact iff_of_false (by simpa using hmem) (by simp [hs])
    · have hnmem : e.1 ∉
          ((positions.filter (fun e => decide (e.2.selling = true))).map Prod.fst) := by
        intro hmem
        rcases List.mem_map.mp hmem with ⟨e', he', hkey⟩
        have he'pos : e' ∈ positions := (List.mem_filter.mp he').1
        have he'sell : e'.2.selling = true := by
          simpa using (List.mem_filter.mp he').2
        have heq : e' = e := List.inj_on_of_nodup_map hnd he'pos he hkey
        rw [heq] at he'sell
        exact hs he'sell
      exact iff_of_true hnmem (by simpa using hs)

/-- Orders and positions for the C7 witness: one open, one filled and one
pending order, one pending-close entry and one live entry. -/
def demoOrders : List OpenOrder := [⟨"open"⟩, ⟨"filled"⟩, ⟨"pending"⟩]

def livePos : GPosition :=
  { buy_price := 20, buy_time := 3, quantity := 300, selling := false }

def demoPositions : List (String × GPosition) :=
  [("600000", stalePos), ("000001", livePos)]

/-- Witness for the amended C7 at the concrete orders and positions. -/
theorem morning_cleanup_removes_all_pending_witness :
    (morning_cleanup demoOrders demoPositions).1
      = demoOrders.filter (fun o => decide (o.status = "open" ∨ o.status = "pending")) ∧
    (morning_cleanup demoOrders demoPositions).2
      = demoPositions.filter (fun e => e.2.selling = false) :=
  morning_cleanup_removes_all_pending demoOrders demoPositions (by decide)

/-- The score-accumulating foldl of identify_three_waves counts 10 points
per qualifying wave. -/
theorem score_foldl_eq (l : List Wave) :
    ∀ acc : ℕ,
      l.foldl (fun s w => if 10 ≤ w.change_pct ∧ w.change_pct ≤ 20 then s + 10 else s) acc
        = acc + 10 * l.countP (fun w => decide (10 ≤ w.change_pct ∧ w.change_pct ≤ 20)) := by
  induction l with
  | nil => simp
  | cons x xs ih =>
    intro acc
    by_cases hx : 10 ≤ x.change_pct ∧ x.change_pct ≤ 20
    · simp [List.foldl_cons, List.countP_cons, hx, ih]
      omega
    · simp [List.foldl_cons, List.countP_cons, hx, ih]

/-- The per-wave score over any list is at most 10 per element. -/
theorem score_foldl_le (l : List Wave) (acc : ℕ) :
    l.foldl (fun s w => if 10 ≤ w.change_pct ∧ w.change_pct ≤ 20 then s + 10 else s) acc
      ≤ acc + 10 * l.length := by
  rw [score_foldl_eq]
  have := List.countP_le_length
    (p := fun w => decide (10 ≤ w.change_pct ∧ w.change_pct ≤ 20)) (l := l)
  omega

/-- C1: whenever identify_three_waves confirms, its result contains at
least 3 up waves, the end prices of the first three up waves strictly
increase, at least 2 support levels are recorded, and the quality score
is at least the configured minimum. -/
theorem three_wave_confirmed_invariants :
    ∀ (bs : List Bar) (minScore : ℕ),
      (identify_three_waves bs minScore).confirmed = true →
      3 ≤ ((identify_three_waves bs minScore).waves.filter
            (fun w => w.wave_type = "up")).length ∧
      ((((identify_three_waves bs minScore).waves.filter
            (fun w => w.wave_type = "up")).take 3).map
          (fun w => w.end_price)).getD 0 0
        < ((((identify_three_waves bs minScore).waves.filter
            (fun w => w.wave_type = "up")).take 3).map
          (fun w => w.end_price)).getD 1 0 ∧
      ((((identify_three_waves bs minScore).waves.filter
            (fun w => w.wave_type = "up")).take 3).map
          (fun w => w.end_price)).getD 1 0
        < ((((identify_three_waves bs minScore).waves.filter
            (fun w => w.wave_type = "up")).take 3).map
          (fun w => w.end_price)).getD 2 0 ∧
      2 ≤ (identify_three_waves bs minScore).support_levels.length ∧
      minScore ≤ (identify_three_waves bs minScore).quality_score := by
  intro bs minScore h
  simp only [identify_three_waves] at h ⊢
  split_ifs at h ⊢ with c1 c2 c3 c4
  all_goals
    dsimp only
    have hb := score_foldl_le
      (((buildWaves bs).1.filter (fun w => w.wave_type = "up")).take 3) 0
    have hlen : (((buildWaves bs).1.filter (fun w => w.wave_type = "up")).take 3).length ≤ 3 :=
      List.length_take_le 3 _
    refine ⟨by simpa using Nat.le_of_not_lt c2, c3.1, c3.2,
      by simp only [List.length_take]; omega, by omega⟩

set_option maxRecDepth 100000 in
/-- Witness for C1: the detector confirms on the concrete 35-bar witness
series, and the invariants hold there. -/
theorem three_wave_confirmed_invariants_witness :
    3 ≤ ((identify_three_waves witBars 40).waves.filter
          (fun w => w.wave_type = "up")).length ∧
    ((((identify_three_waves witBars 40).waves.filter
          (fun w => w.wave_type = "up")).take 3).map
        (fun w => w.end_price)).getD 0 0
      < ((((identify_three_waves witBars 40).waves.filter
          (fun w => w.wave_type = "up")).take 3).map
        (fun w => w.end_price)).getD 1 0 ∧
    ((((identify_three_waves witBars 40).waves.filter
          (fun w => w.wave_type = "up")).take 3).map
        (fun w => w.end_price)).getD 1 0
      < ((((identify_three_waves witBars 40).waves.filter
          (fun w => w.wave_type = "up")).take 3).map
        (fun w => w.end_price)).getD 2 0 ∧
    2 ≤ (identify_three_waves witBars 40).support_levels.length ∧
    40 ≤ (identify_three_waves witBars 40).quality_score :=
  three_wave_confirmed_invariants witBars 40 (by with_unfolding_all rfl)

/-- On a confirmed result, the waves and support levels come from the
segmentation and the quality score is the capped additive score. -/
theorem identify_confirmed_destruct (bs : List Bar) (minScore : ℕ)
    (h : (identify_three_waves bs minScore).confirmed = true) :
    (identify_three_waves bs minScore).waves = (buildWaves bs).1 ∧
    (identify_three_waves bs minScore).support_levels = (buildWaves bs).2.take 3 ∧
    2 ≤ (buildWaves bs).2.length ∧
    (identify_three_waves bs minScore).quality_score =
      min 100 ((((buildWaves bs).1.filter (fun w => w.wave_type = "up")).take 3).foldl
          (fun s w => if 10 ≤ w.change_pct ∧ w.change_pct ≤ 20 then s + 10 else s) 0
        + (if ((buildWaves bs).1.map (fun w => w.duration)).sum ≤ 90 then 20 else 0)
        + 20) := by
  simp only [identify_three_waves] at h ⊢
  split_ifs at h ⊢ with c1 c2 c3 c4
  all_goals
    dsimp only
    exact ⟨rfl, rfl, by omega, by omega⟩

/-- C9: on a confirmed result the quality score is exactly 10 points per
first-three up wave whose change_pct lies in [10, 20], plus 20 when the
summed durations of all waves are at most 90, plus 20 when at least 2
support levels exist; whenever the detector reaches the quality check and
this total falls below the configured minimum it fails with the
quality-score reason; and three qualifying up waves within 90 total days
score exactly 70. -/
theorem quality_score_characterization :
    ∀ (bs : List Bar) (minScore : ℕ),
      ((identify_three_waves bs minScore).confirmed = true →
        (identify_three_waves bs minScore).quality_score =
          10 * (((identify_three_waves bs minScore).waves.filter
              (fun w => w.wave_type = "up")).take 3).countP
                (fun w => decide (10 ≤ w.change_pct ∧ w.change_pct ≤ 20))
          + (if ((identify_three_waves bs minScore).waves.map
                (fun w => w.duration)).sum ≤ 90 then 20 else 0)
          + (if 2 ≤ (identify_three_waves bs minScore).support_levels.length
              then 20 else 0)) ∧
      (¬ bs.length < 30 →
        3 ≤ ((buildWaves bs).1.filter (fun w => w.wave_type = "up")).length →
        ((((buildWaves bs).1.filter (fun w => w.wave_type = "up")).take 3).map
            (fun w => w.end_price)).getD 0 0
          < ((((buildWaves bs).1.filter (fun w => w.wave_type = "up")).take 3).map
            (fun w => w.end_price)).getD 1 0 ∧
        ((((buildWaves bs).1.filter (fun w => w.wave_type = "up")).take 3).map
            (fun w => w.end_price)).getD 1 0
          < ((((buildWaves bs).1.filter (fun w => w.wave_type = "up")).take 3).map
            (fun w => w.end_price)).getD 2 0 →
        2 ≤ (buildWaves bs).2.length →
        10 * (((buildWaves bs).1.filter (fun w => w.wave_type = "up")).take 3).countP
            (fun w => decide (10 ≤ w.change_pct ∧ w.change_pct ≤ 20))
          + (if ((buildWaves bs).1.map (fun w => w.duration)).sum ≤ 90 then 20 else 0)
          + 20 < minScore →
        (identify_three_waves bs minScore).confirmed = false ∧
        (identify_three_waves bs minScore).reason = "质量分不足") ∧
      ((identify_three_waves bs minScore).confirmed = true →
        (((identify_three_waves bs minScore).waves.filter
            (fun w => w.wave_type = "up")).take 3).countP
          (fun w => decide (10 ≤ w.change_pct ∧ w.change_pct ≤ 20)) = 3 →
        ((identify_three_waves bs minScore).waves.map (fun w => w.duration)).sum ≤ 90 →
        (identify_three_waves bs minScore).quality_score = 70) := by
  intro bs minScore
  refine ⟨?_, ?_, ?_⟩
  · intro h
    obtain ⟨hw, hs, hsl, hq⟩ := identify_confirmed_destruct bs minScore h
    rw [hq, hw, hs, score_foldl_eq, List.length_take]
    rw [if_pos (show 2 ≤ min 3 (buildWaves bs).2.length by omega)]
    have hcnt := List.countP_le_length
      (p := fun w => decide (10 ≤ w.change_pct ∧ w.change_pct ≤ 20))
      (l := ((buildWaves bs).1.filter (fun w => w.wave_type = "up")).take 3)
    have hlen := List.length_take_le 3
      ((buildWaves bs).1.filter (fun w => w.wave_type = "up"))
    by_cases hdays : ((buildWaves bs).1.map (fun w => w.duration)).sum ≤ 90
    · rw [if_pos hdays]
      omega
    · rw [if_neg hdays]
      omega
  · intro hlen30 hup hinc hsup hscore
    simp only [identify_three_waves]
    split_ifs at hscore ⊢
    all_goals try exact ⟨rfl, rfl⟩
    all_goals exfalso
    all_goals try rw [score_foldl_eq] at *
    all_goals omega
  · intro h hcnt3 hdays
    obtain ⟨hw, hs, hsl, hq⟩ := identify_confirmed_destruct bs minScore h
    rw [hw] at hcnt3 hdays
    rw [hq, score_foldl_eq, hcnt3, if_pos hdays]
    omega

set_option maxRecDepth 100000 in
/-- Witness for C9: on the witness series the three up waves all change
between 10% and 20%, the durations sum to 30 and the score is exactly
70. -/
theorem quality_score_characterization_witness :
    (identify_three_waves witBars 40).quality_score = 70 :=
  (quality_score_characterization witBars 40).2.2 (by with_unfolding_all rfl)
    (by with_unfolding_all rfl)
    (by
      have h30 : ((identify_three_waves witBars 40).waves.map
          (fun w => w.duration)).sum = 30 := by
        with_unfolding_all rfl
      omega)

/-- A successful scan returns the first index in range satisfying the
condition. -/
theorem scanFirst_some (ok : ℕ → Bool) :
    ∀ (c i r : ℕ), scanFirst ok i c = some r →
      i ≤ r ∧ r < i + c ∧ ok r = true ∧ ∀ j, i ≤ j → j < r → ok j = false := by
  intro c
  induction c with
  | zero => intro i r h; exact absurd h (by simp [scanFirst])
  | succ c ih =>
    intro i r h
    simp only [scanFirst] at h
    by_cases hi : ok i
    · rw [if_pos hi, Option.some.injEq] at h
      subst h
      exact ⟨le_refl _, by omega, hi, fun j hj1 hj2 => absurd hj2 (by omega)⟩
    · rw [if_neg hi] at h
      obtain ⟨h1, h2, h3, h4⟩ := ih (i + 1) r h
      refine ⟨by omega, by omega, h3, ?_⟩
      intro j hj1 hj2
      by_cases hji : j = i
      · subst hji
        simpa using hi
      · exact h4 j (by omega) hj2

/-- A failed scan means no index in range satisfies the condition. -/
theorem scanFirst_none (ok : ℕ → Bool) :
    ∀ (c i : ℕ), scanFirst ok i c = none →
      ∀ j, i ≤ j → j < i + c → ok j = false := by
  intro c
  induction c with
  | zero => intro i _ j hj1 hj2; omega
  | succ c ih =>
    intro i h j hj1 hj2
    simp only [scanFirst] at h
    by_cases hi : ok i
    · rw [if_pos hi] at h
      exact absurd h (by simp)
    · rw [if_neg hi] at h
      by_cases hji : j = i
      · subst hji
        simpa using hi
      · exact ih (i + 1) h j (by omega) (by omega)

/-- Every wave end is within 29 bars of the wave start. -/
theorem waveEnd_le (bs : List Bar) (wt : String) (s : ℕ) :
    waveEnd bs wt s ≤ s + 29 := by
  unfold waveEnd
  split
  · rename_i i heq
    obtain ⟨h1, h2, _, _⟩ := scanFirst_some _ _ _ _ heq
    have := min_le_left (s + 30) bs.length
    omega
  · exact min_le_left _ _

/-- Every wave produced by the segmentation loop records its start price
as the close at its start, its end as the direction's end-search result
from its start, its end price as the close there, and its duration as the
inclusive index span. -/
theorem buildWavesAux_waves (bs : List Bar) :
    ∀ (fuel cur : ℕ) (wt : String) (w : Wave),
      w ∈ (buildWavesAux bs fuel cur wt).1 →
      w.start_price = closeAt bs w.start_date ∧
      w.end_price = closeAt bs w.end_date ∧
      w.duration = w.end_date - w.start_date + 1 ∧
      w.end_date = waveEnd bs w.wave_type w.start_date := by
  intro fuel
  induction fuel with
  | zero => intro cur wt w h; exact absurd h (by simp [buildWavesAux])
  | succ fuel ih =>
    intro cur wt w h
    simp only [buildWavesAux] at h
    by_cases hc : cur < bs.length - 10
    · rw [if_pos hc] at h
      rcases List.mem_cons.mp h with hw | hw
      · subst hw
        exact ⟨rfl, rfl, rfl, rfl⟩
      · exact ih _ _ w hw
    · rw [if_neg hc] at h
      exact absurd h (by simp)

/-- The segmentation loop emits at most fuel waves. -/
theorem buildWavesAux_length (bs : List Bar) :
    ∀ (fuel cur : ℕ) (wt : String),
      (buildWavesAux bs fuel cur wt).1.length ≤ fuel := by
  intro fuel
  induction fuel with
  | zero => intro cur wt; simp [buildWavesAux]
  | succ fuel ih =>
    intro cur wt
    simp only [buildWavesAux]
    by_cases hc : cur < bs.length - 10
    · rw [if_pos hc]
      simpa using ih _ _
    · rw [if_neg hc]
      simp

/-- C8: one invocation of the wave segmenter produces at most 8 waves,
and every produced wave spans at most 30 bars. -/
theorem wave_segmenter_bounds :
    ∀ bs : List Bar,
      (buildWaves bs).1.length ≤ 8 ∧
      (buildWaves bs).1.all (fun w => decide (w.duration ≤ 30)) = true := by
  intro bs
  refine ⟨buildWavesAux_length bs 8 0 "up", ?_⟩
  rw [List.all_eq_true]
  intro w hw
  obtain ⟨_, _, hdur, hend⟩ := buildWavesAux_waves bs 8 0 "up" w hw
  have hle : w.end_date ≤ w.start_date + 29 := hend ▸ waveEnd_le bs w.wave_type w.start_date
  simp only [decide_eq_true_eq]
  omega

theorem waveOkF_up (bs : List Bar) (p : ℚ) : waveOkF bs "up" p = upEndOk bs p := by
  simp [waveOkF]

theorem waveEnd_eq_some (bs : List Bar) (wt : String) (s i : ℕ)
    (h : scanFirst (waveOkF bs wt (closeAt bs s)) (s + 5)
      (min (s + 30) bs.length - (s + 5)) = some i) :
    waveEnd bs wt s = i := by
  unfold waveEnd
  rw [h]

theorem waveEnd_eq_none (bs : List Bar) (wt : String) (s : ℕ)
    (h : scanFirst (waveOkF bs wt (closeAt bs s)) (s + 5)
      (min (s + 30) bs.length - (s + 5)) = none) :
    waveEnd bs wt s = min (s + 29) (bs.length - 1) := by
  unfold waveEnd
  rw [h]

/-- A nonempty Python max() is at most c iff every element is. -/
theorem maxQ_cons_le_iff (c : ℚ) :
    ∀ (l : List ℚ) (x : ℚ), maxQ (x :: l) ≤ c ↔ x ≤ c ∧ ∀ y ∈ l, y ≤ c := by
  intro l
  induction l with
  | nil => intro x; simp [maxQ]
  | cons y ys ih =>
    intro x
    have h1 : maxQ (x :: y :: ys) = maxQ (max x y :: ys) := rfl
    rw [h1, ih (max x y), max_le_iff]
    simp only [List.forall_mem_cons]
    tauto

/-- The max over a mapped index range is at most c iff the function is at
most c at every index of the range. -/
theorem maxQ_range'_le_iff (f : ℕ → ℚ) (c : ℚ) (a cnt : ℕ) (h : 0 < cnt) :
    maxQ ((List.range' a cnt).map f) ≤ c ↔ ∀ k, a ≤ k → k < a + cnt → f k ≤ c := by
  obtain ⟨m, rfl⟩ : ∃ m, cnt = m + 1 := ⟨cnt - 1, by omega⟩
  rw [List.range'_succ, List.map_cons, maxQ_cons_le_iff]
  constructor
  · rintro ⟨hx, hall⟩ k hk1 hk2
    rcases eq_or_lt_of_le hk1 with rfl | hlt
    · exact hx
    · exact hall (f k) (List.mem_map_of_mem f (List.mem_range'_1.mpr ⟨by omega, by omega⟩))
  · intro hall
    refine ⟨hall a (le_refl a) (by omega), ?_⟩
    intro y hy
    rcases List.mem_map.mp hy with ⟨k, hk, rfl⟩
    have hk' := List.mem_range'_1.mp hk
    exact hall k (by omega) (by omega)

/-- The source's up-leg end test agrees with its propositional reading:
at least a 10% rise, strictly more than 3 bars before the series end, and
a close at least every close of the 3 bars before and the 3 after. -/
theorem upEndOk_iff (bs : List Bar) (sPrice : ℚ) (i : ℕ) :
    upEndOk bs sPrice i = true ↔ upEndCond bs sPrice i := by
  simp only [upEndOk, upEndCond, closesIdx, Bool.and_eq_true, decide_eq_true_eq]
  constructor
  · rintro ⟨⟨⟨h1, h2⟩, h3⟩, h4⟩
    have hn : i + 3 < bs.length := by omega
    refine ⟨h1, hn, ?_, ?_⟩
    · intro k hk1 hk2
      have hmax := (maxQ_range'_le_iff (fun k => closeAt bs k) (closeAt bs i)
        (i - 3) ((i + 1) - (i - 3)) (by omega)).mp h3
      exact hmax k hk1 (by omega)
    · intro k hk1 hk2
      have hmax := (maxQ_range'_le_iff (fun k => closeAt bs k) (closeAt bs i)
        (i + 1) (min bs.length (i + 4) - (i + 1)) (by omega)).mp h4
      exact hmax k (by omega) (by omega)
  · rintro ⟨h1, h2, h3, h4⟩
    refine ⟨⟨⟨h1, by omega⟩, ?_⟩, ?_⟩
    · refine (maxQ_range'_le_iff (fun k => closeAt bs k) (closeAt bs i)
        (i - 3) ((i + 1) - (i - 3)) (by omega)).mpr ?_
      intro k hk1 hk2
      by_cases hki : k = i
      · subst hki
        exact le_refl _
      · exact h3 k hk1 (by omega)
    · refine (maxQ_range'_le_iff (fun k => closeAt bs k) (closeAt bs i)
        (i + 1) (min bs.length (i + 4) - (i + 1)) (by omega)).mpr ?_
      intro k hk1 hk2
      exact h4 k (by omega) (by omega)

/-- C6 amended: every up leg the segmenter produces ends either at the
first bar, at least 5 past the start and within the 30-bar search window,
that has risen at least 10% from the start price, lies strictly more than
3 bars before the series end, and is at least every close of the 3 bars
before and after it (no earlier bar in the window qualifying); or, when
no bar in the window qualifies — in particular every bar within the last
3 of the series never qualifies — at the forced end
min(start+29, length-1). -/
theorem up_leg_end_rule :
    ∀ (bs : List Bar) (w : Wave), w ∈ (buildWaves bs).1 → w.wave_type = "up" →
      (∃ i, w.end_date = i ∧ w.end_price = closeAt bs i ∧
        w.start_date + 5 ≤ i ∧ i < min (w.start_date + 30) bs.length ∧
        upEndCond bs w.start_price i ∧
        (∀ j, w.start_date + 5 ≤ j → j < i → ¬ upEndCond bs w.start_price j)) ∨
      ((∀ j, w.start_date + 5 ≤ j → j < min (w.start_date + 30) bs.length →
          ¬ upEndCond bs w.start_price j) ∧
        w.end_date = min (w.start_date + 29) (bs.length - 1) ∧
        w.end_price = closeAt bs w.end_date) := by
  intro bs w hmem hup
  obtain ⟨hsp, hep, hdur, hend⟩ := buildWavesAux_waves bs 8 0 "up" w hmem
  rw [hup] at hend
  rcases hscan : scanFirst (upEndOk bs (closeAt bs w.start_date)) (w.start_date + 5)
      (min (w.start_date + 30) bs.length - (w.start_date + 5)) with _ | i
  · have he := waveEnd_eq_none bs "up" w.start_date (by rw [waveOkF_up]; exact hscan)
    have hfacts := scanFirst_none _ _ _ hscan
    refine Or.inr ⟨?_, hend.trans he, hep⟩
    intro j hj1 hj2
    rw [hsp]
    intro hcond
    have hok := (upEndOk_iff bs (closeAt bs w.start_date) j).mpr hcond
    have hff := hfacts j hj1 (by omega)
    rw [hok] at hff
    exact absurd hff (by simp)
  · have he := waveEnd_eq_some bs "up" w.start_date i (by rw [waveOkF_up]; exact hscan)
    obtain ⟨h1, h2, h3, h4⟩ := scanFirst_some _ _ _ _ hscan
    have hei : w.end_date = i := hend.trans he
    refine Or.inl ⟨i, hei, ?_, h1, by omega, ?_, ?_⟩
    · rw [hei] at hep
      exact hep
    · rw [hsp]
      exact (upEndOk_iff bs (closeAt bs w.start_date) i).mp h3
    · intro j hj1 hj2
      rw [hsp]
      intro hcond
      have hok := (upEndOk_iff bs (closeAt bs w.start_date) j).mpr hcond
      have hff := h4 j hj1 hj2
      rw [hok] at hff
      exact absurd hff (by simp)

theorem getD_zero_mem {α : Type} [Inhabited α] :
    ∀ (l : List α), l ≠ [] → l.getD 0 default ∈ l := by
  intro l h
  cases l with
  | nil => exact absurd rfl h
  | cons x xs => simp

set_option maxRecDepth 100000 in
/-- C6 counterexample: on the 12-bar series the first produced up leg is
forced to end at the series end (index 11, close 102), although bar 9
(close 115, a 15% rise over the start close 100) is the first bar the
claim's truncated-window rule accepts. -/
theorem up_leg_edge_counterexample :
    ((buildWaves edgeBars).1.getD 0 default).wave_type = "up" ∧
    ((buildWaves edgeBars).1.getD 0 default).start_date = 0 ∧
    ((buildWaves edgeBars).1.getD 0 default).start_price = 100 ∧
    ((buildWaves edgeBars).1.getD 0 default).end_date = 11 ∧
    ((buildWaves edgeBars).1.getD 0 default).end_price = 102 ∧
    up_end_spec edgeBars 100 0 = some 9 ∧
    closeAt edgeBars 9 = 115 := by
  refine ⟨?_, ?_, ?_, ?_, ?_, ?_, ?_⟩ <;> with_unfolding_all rfl

/-- The first wave the segmenter produces on the witness series. -/
def witWave0 : Wave := (buildWaves witBars).1.getD 0 default

set_option maxRecDepth 100000 in
/-- Witness for the amended C6 at the first up leg of the witness
series. -/
theorem up_leg_end_rule_witness :
    (∃ i, witWave0.end_date = i ∧ witWave0.end_price = closeAt witBars i ∧
      witWave0.start_date + 5 ≤ i ∧
      i < min (witWave0.start_date + 30) witBars.length ∧
      upEndCond witBars witWave0.start_price i ∧
      (∀ j, witWave0.start_date + 5 ≤ j → j < i →
        ¬ upEndCond witBars witWave0.start_price j)) ∨
    ((∀ j, witWave0.start_date + 5 ≤ j →
        j < min (witWave0.start_date + 30) witBars.length →
        ¬ upEndCond witBars witWave0.start_price j) ∧
      witWave0.end_date = min (witWave0.start_date + 29) (witBars.length - 1) ∧
      witWave0.end_price = closeAt witBars witWave0.end_date) :=
  up_leg_end_rule witBars witWave0
    (getD_zero_mem (buildWaves witBars).1
      (by
        have hlen : (buildWaves witBars).1.length = 5 := by with_unfolding_all rfl
        intro hnil
        rw [hnil] at hlen
        simp at hlen))
    (by with_unfolding_all rfl)

set_option maxRecDepth 100000 in
/-- C5: on the witness series the third wave is the up leg over bars
12..17; the source records support 99 — the low of bar 3, which lies far
outside the leg — while the specified rule (lowest low of the leg's
high-volume bullish bars) yields no support at all, because no bar inside
the leg is bullish. -/
theorem support_price_bug :
    ((buildWaves witBars).1.getD 2 default).wave_type = "up" ∧
    ((buildWaves witBars).1.getD 2 default).start_date = 12 ∧
    ((buildWaves witBars).1.getD 2 default).end_date = 17 ∧
    ((buildWaves witBars).1.getD 2 default).support_level = some 99 ∧
    support_price_spec witBars 12 17 = none := by
  refine ⟨?_, ?_, ?_, ?_, ?_⟩ <;> with_unfolding_all rfl
